import Mathlib

/-
Verification development for the cada-rs declaration-diff engine.

The Rust sources are embedded shallowly:
- `src/types.rs`    : the record types (`TypedLiteral`, `SourceLocation`,
  `CalledFunctionChanges`, `DetailedChanges`, `FileASTData`).
- `src/ast_parser.rs`: the expression walkers (`FunctionCallVisitor`,
  `LiteralVisitor`), `remove_duplicates`, `get_source_location`,
  `process_file_items` / `process_impl_block`.
- `src/differ.rs`   : `compare_asts` and the `find_added/modified/deleted_*`
  families.
- `src/granular.rs` : `compare_called_functions`.

`HashMap<String, V>` values are modelled as association lists
`List (String × V)`; the hash-map invariant (no duplicate keys) appears as
`Nodup` hypotheses where a proof needs it.  Syntax-tree nodes that the differ
only ever passes to `format_node` are kept as an arbitrary type together with
a rendering function `fmt`, mirroring that `format_node` is a pure function
of the node (spec section 4.2, determinism requirement).
-/

set_option autoImplicit false

namespace Cada

/-- Model of `types.rs::TypedLiteral`: a literal value with its type tag. -/
structure TypedLiteral where
  type_name : String
  value : String
deriving DecidableEq, Repr

/-- Model of `types.rs::SourceLocation`. -/
structure SourceLocation where
  start_line : Nat
  start_col : Nat
  end_line : Nat
  end_col : Nat
  file_name : String
deriving DecidableEq, Repr

/-- Model of a `proc_macro2::Span`: the four coordinates the code reads via
`span.start()` / `span.end()`. -/
structure Span where
  start_line : Nat
  start_col : Nat
  end_line : Nat
  end_col : Nat
deriving DecidableEq, Repr

/-- Model of `ast_parser.rs::get_source_location`. -/
def get_source_location (span : Span) (filename : String) : SourceLocation :=
  { start_line := span.start_line
    start_col := span.start_col
    end_line := span.end_line
    end_col := span.end_col
    file_name := filename }

/-- Member of a field access, model of `syn::Member`. -/
inductive Member where
  | named (ident : String)
  | unnamed (index : Nat)
deriving DecidableEq, Repr

/-- Literal shapes of `syn::Lit` as far as `LiteralVisitor::visit_lit`
distinguishes them.  Numeric literals carry their base-10 digit text
(`base10_digits`), string-like literals carry their cooked value. -/
inductive Lit where
  | str (value : String)
  | int (base10_digits : String)
  | float (base10_digits : String)
  | bool (value : Bool)
  | char (value : Char)
  | byte (value : Nat)
  | cstr (value : String)
  | byteStr (value : List Nat)
  | verbatim (token : String)
deriving DecidableEq, Repr

/-- Expression shapes of `syn::Expr` as far as the two visitors distinguish
them.  `other` stands for every remaining `syn::Expr` variant: for those the
visitors fall through to `visit::visit_expr`, whose generated code visits all
child expressions, so only the child list matters.  `macroCall` carries the
invocation's path segments and, to model the token stream, the expressions
the tokens would parse to; neither visitor ever enters them
(`process_macro` comments "We don't need to visit the tokens inside the
macro", and syn's default `visit_macro` does not descend into token
streams). -/
inductive Expr where
  | path (segments : List String)
  | call (func : Expr) (args : List Expr)
  | methodCall (receiver : Expr) (method : String) (args : List Expr)
  | macroCall (segments : List String) (tokens : List Expr)
  | field (base : Expr) (member : Member)
  | lit (l : Lit)
  | structLit (segments : List String) (fields : List Expr)
  | arrayLit (elems : List Expr)
  | tupleLit (elems : List Expr)
  | other (children : List Expr)

/-- Rust `Debug` escaping of one character as used by `format!("{:?}", _)` on
a `CString`, written out for the character classes that occur in this
development (printable ASCII and the common control escapes; other
characters are kept verbatim here). -/
def escapeDebugChar (c : Char) : String :=
  if c = '"' then "\\\""
  else if c = '\\' then "\\\\"
  else if c = '\n' then "\\n"
  else if c = '\t' then "\\t"
  else if c = '\r' then "\\r"
  else String.mk [c]

/-- Rust `format!("{:?}", cstring.value())` on the `CString` payload of a
C-string literal: the content surrounded by double quotes, `Debug`-escaped. -/
def rustDebugCString (s : String) : String :=
  "\"" ++ String.join (s.toList.map escapeDebugChar) ++ "\""

/-- Rust `format!("{:?}", bytes)` on the `Vec<u8>` payload of a byte-string
literal: the decimal bytes in brackets. -/
def rustDebugByteVec (bs : List Nat) : String :=
  "[" ++ String.intercalate ", " (bs.map toString) ++ "]"

/-- Rust `format!("{:?}", literal)` on a `proc_macro2::Literal` (the payload
of `Lit::Verbatim`): the `Debug` struct form around the token text. -/
def rustDebugLiteral (token : String) : String :=
  "Literal \x7b lit: " ++ token ++ " \x7d"

/-- Model of `LiteralVisitor::visit_lit` (ast_parser.rs lines 307-368): the
typed literals pushed for one `syn::Lit`.  Note the source tags `Lit::CStr`
as `"BYTE"` with a `Debug`-formatted value (the arm binds `lit_byte` and
reuses the byte tag), while the older `LiteralVisitor::process_lit` in the
same file tags it `"CSTR"`. -/
def visit_lit : Lit → List TypedLiteral
  | .str value => [⟨"STRING", value⟩]
  | .int base10_digits => [⟨"INT", base10_digits⟩]
  | .float base10_digits => [⟨"FLOAT", base10_digits⟩]
  | .bool value => [⟨"BOOL", if value then "true" else "false"⟩]
  | .char value => [⟨"CHAR", String.mk [value]⟩]
  | .byte value => [⟨"BYTE", toString value⟩]
  | .cstr value => [⟨"BYTE", rustDebugCString value⟩]
  | .byteStr value => [⟨"BYTE_STR", rustDebugByteVec value⟩]
  | .verbatim token => [⟨"VERBATIM", rustDebugLiteral token⟩]

mutual

/-- Traversal of `LiteralVisitor` over one expression: the overridden
`visit_expr_struct` / `visit_expr_array` / `visit_expr_tuple` / `visit_lit`
arms, and syn's generated child-visiting traversal for every other
expression kind (which never descends into macro token streams). -/
def literalVisitExpr : Expr → List TypedLiteral
  | .structLit segments fields =>
      (match segments.getLast? with
       | some struct_name => [⟨"CompositeLit:" ++ struct_name, "struct-literal"⟩]
       | none => []) ++ literalVisitList fields
  | .arrayLit elems => ⟨"CompositeLit:Array", "array-literal"⟩ :: literalVisitList elems
  | .tupleLit elems => ⟨"CompositeLit:Tuple", "tuple-literal"⟩ :: literalVisitList elems
  | .lit l => visit_lit l
  | .macroCall _ _ => []
  | .path _ => []
  | .call func args => literalVisitExpr func ++ literalVisitList args
  | .methodCall receiver _ args => literalVisitExpr receiver ++ literalVisitList args
  | .field base _ => literalVisitExpr base
  | .other children => literalVisitList children

/-- Literal traversal over a list of child expressions, in order. -/
def literalVisitList : List Expr → List TypedLiteral
  | [] => []
  | e :: es => literalVisitExpr e ++ literalVisitList es

end

/-- Label pushed by `FunctionCallVisitor::process_method_call` for the
receiver shape, before the receiver and arguments are walked. -/
def methodCallLabel (receiver : Expr) (method_name : String) : String :=
  match receiver with
  | .path segments =>
      match segments.getLast? with
      | some base_name => base_name ++ "." ++ method_name
      | none => method_name
  | .field _ member =>
      match member with
      | .named ident => "field." ++ ident ++ "." ++ method_name
      | .unnamed index => "field." ++ toString index ++ "." ++ method_name
  | .methodCall _ nested_method _ => "chain." ++ nested_method ++ "." ++ method_name
  | _ => "expr." ++ method_name

/-- Labels pushed by `FunctionCallVisitor::process_field_call` for a field
access in callee position (the base is walked separately). -/
def fieldCallLabel (base : Expr) (member : Member) : List String :=
  match base with
  | .path segments =>
      match segments.getLast? with
      | some base_name =>
          match member with
          | .named ident => [base_name ++ "." ++ ident]
          | .unnamed index => [base_name ++ "." ++ toString index]
      | none => []
  | _ =>
      match member with
      | .named ident => ["expr." ++ ident]
      | .unnamed index => ["expr." ++ toString index]

mutual

/-- Traversal of the TRAIT method `FunctionCallVisitor::visit_expr`
(ast_parser.rs lines 370-379), the only method the visitor overrides:
`Expr::Call` goes to `process_call`, `Expr::MethodCall` to
`process_method_call`, `Expr::Macro` pushes the `macro!<name>` label
without entering the tokens, and everything else falls through to the free
function `visit::visit_expr` on the same node (`freeVisitExpr`), whose
generated code visits the node's child expressions through the trait
method, i.e. through this override again. -/
def callVisitExpr : Expr → List String
  | .call func args => processCallee func ++ freeVisitList args
  | .methodCall receiver method args =>
      methodCallLabel receiver method :: (freeVisitExpr receiver ++ freeVisitList args)
  | .macroCall segments _ =>
      (match segments.getLast? with
       | some macro_name => ["macro!" ++ macro_name]
       | none => [])
  | .path _ => []
  | .field base _ => callVisitExpr base
  | .lit _ => []
  | .structLit _ fields => callVisitList fields
  | .arrayLit elems => callVisitList elems
  | .tupleLit elems => callVisitList elems
  | .other children => callVisitList children

/-- Callee handling of `FunctionCallVisitor::process_call` (ast_parser.rs
lines 382-406): a path callee is labelled with its `::`-joined segments, a
field-access callee goes through `process_field_call`, which also walks
the base — via the free `visit::visit_expr`, so a call-shaped base is not
itself labelled — and any other callee pushes the `complex_call` sentinel
and is not walked at all. -/
def processCallee : Expr → List String
  | .path segments =>
      (match segments.getLast? with
       | some _ => [String.intercalate "::" segments]
       | none => [])
  | .field base member => fieldCallLabel base member ++ freeVisitExpr base
  | _ => ["complex_call"]

/-- Model of the FREE function `visit::visit_expr(self, node)` as called
directly by `process_call` (on each argument), `process_method_call` (on
the receiver and each argument) and `process_field_call` (on the base).
The free function matches the node's variant and calls the per-variant
trait method (`visit_expr_call`, `visit_expr_method_call`,
`visit_expr_macro`, ...), none of which `FunctionCallVisitor` overrides:
so the node ITSELF is not run through the labelling dispatch — a
call/method-call/macro sitting directly in argument, receiver or
field-base position gets no label — while the per-variant default visits
the node's child expressions through the trait `visit_expr`, i.e. through
the override (`callVisitExpr`).  The default for `Expr::Macro` visits only
the path, never the token stream. -/
def freeVisitExpr : Expr → List String
  | .call func args => callVisitExpr func ++ callVisitList args
  | .methodCall receiver _ args => callVisitExpr receiver ++ callVisitList args
  | .macroCall _ _ => []
  | .path _ => []
  | .field base _ => callVisitExpr base
  | .lit _ => []
  | .structLit _ fields => callVisitList fields
  | .arrayLit elems => callVisitList elems
  | .tupleLit elems => callVisitList elems
  | .other children => callVisitList children

/-- Child expressions visited through the trait `visit_expr` override, in
order (the per-variant default traversals do this). -/
def callVisitList : List Expr → List String
  | [] => []
  | e :: es => callVisitExpr e ++ callVisitList es

/-- Argument lists visited through the free `visit::visit_expr`, in order
(the explicit `for arg in &call.args` loops of the `process_*` methods do
this). -/
def freeVisitList : List Expr → List String
  | [] => []
  | e :: es => freeVisitExpr e ++ freeVisitList es

end

/-- Model of `syn::ItemFn` as far as the granular differ reads it: the body
(statement expressions, walked by the visitors) and the span reported by
`get_source_location`. -/
structure ItemFn where
  body : List Expr
  span : Span

/-- Model of `ast_parser.rs::extract_function_calls`. -/
def extract_function_calls (func : ItemFn) : List String :=
  callVisitList func.body

/-- Model of `ast_parser.rs::extract_literals`. -/
def extract_literals (func : ItemFn) : List TypedLiteral :=
  literalVisitList func.body

/-- Accumulator loop of `ast_parser.rs::remove_duplicates`; the `HashSet`
`seen` is modelled as the list of strings already kept. -/
def removeDuplicatesGo (seen : List String) : List String → List String
  | [] => []
  | s :: rest =>
      if seen.contains s then removeDuplicatesGo seen rest
      else s :: removeDuplicatesGo (s :: seen) rest

/-- Model of `ast_parser.rs::remove_duplicates`: keep the first occurrence
of every string, in order. -/
def remove_duplicates (strings : List String) : List String :=
  removeDuplicatesGo [] strings

/-- Model of `types.rs::CalledFunctionChanges`. -/
structure CalledFunctionChanges where
  added_functions : List String
  removed_functions : List String
  added_literals : List TypedLiteral
  removed_literals : List TypedLiteral
  old_function_src_loc : SourceLocation
  new_function_src_loc : SourceLocation
deriving DecidableEq, Repr

/-- Model of `granular.rs::compare_called_functions`.  The Rust function
receives the two `FileASTData` values but reads only their `file_path`
fields (for `get_source_location`), so those two strings are passed
directly. -/
def compare_called_functions (old_func new_func : ItemFn)
    (old_file_path new_file_path : String) : CalledFunctionChanges :=
  let old_calls := extract_function_calls old_func
  let new_calls := extract_function_calls new_func
  let added_functions := new_calls.filter (fun call => !(old_calls.contains call))
  let removed_functions := old_calls.filter (fun call => !(new_calls.contains call))
  let old_literals := extract_literals old_func
  let new_literals := extract_literals new_func
  let added_literals := new_literals.filter (fun l =>
    !(old_literals.any (fun old_lit =>
        old_lit.type_name == l.type_name && old_lit.value == l.value)))
  let removed_literals := old_literals.filter (fun l =>
    !(new_literals.any (fun new_lit =>
        new_lit.type_name == l.type_name && new_lit.value == l.value)))
  { added_functions := remove_duplicates added_functions
    removed_functions := remove_duplicates removed_functions
    added_literals := added_literals
    removed_literals := removed_literals
    old_function_src_loc := get_source_location old_func.span old_file_path
    new_function_src_loc := get_source_location new_func.span new_file_path }

/-- Model of `types.rs::DetailedChanges`: per category the added, modified
and deleted entry vectors (`vec![name, code]` and
`vec![name, old_code, new_code]` become `List String`). -/
structure DetailedChanges where
  module_name : String
  added_functions : List (List String)
  modified_functions : List (List String)
  deleted_functions : List (List String)
  added_types : List (List String)
  modified_types : List (List String)
  deleted_types : List (List String)
  added_interfaces : List (List String)
  modified_interfaces : List (List String)
  deleted_interfaces : List (List String)
  added_methods : List (List String)
  modified_methods : List (List String)
  deleted_methods : List (List String)
deriving DecidableEq, Repr

/-- Model of `DetailedChanges::new` (types.rs lines 67-84): every list
empty, `module_name` set to the constructor argument. -/
def DetailedChanges.new (module_name : String) : DetailedChanges :=
  { module_name := module_name
    added_functions := [], modified_functions := [], deleted_functions := []
    added_types := [], modified_types := [], deleted_types := []
    added_interfaces := [], modified_interfaces := [], deleted_interfaces := []
    added_methods := [], modified_methods := [], deleted_methods := [] }

/-- Model of `types.rs::FileASTData`.  The four `HashMap`s become
association lists; the node types are kept abstract (`F` for `ItemFn`, `T`
for `Item`, `I` for `ItemTrait`, `M` for `ItemImpl`) because the structural
differ only ever passes the nodes to `format_node`. -/
structure FileASTData (F T I M : Type) where
  functions : List (String × F)
  types : List (String × T)
  interfaces : List (String × I)
  methods : List (String × (M × F))
  file_content : String
  file_path : String

/-- Model of `HashMap::contains_key` on an association list. -/
def containsKey {α : Type} (m : List (String × α)) (k : String) : Bool :=
  m.any (fun p => p.1 == k)

/-- Model of `HashMap::get` on an association list: the entry for `k`
(unique under the hash-map no-duplicate-keys invariant). -/
def lookupKey {α : Type} (m : List (String × α)) (k : String) : Option α :=
  (m.find? (fun p => p.1 == k)).map (fun p => p.2)

/-- Key list of an association list (the hash map's key set). -/
def keys {α : Type} (m : List (String × α)) : List String :=
  m.map Prod.fst

/-- Model of `differ.rs::find_added_func_elements` and its three per-type
clones (the Rust source repeats the same body at four monomorphic types):
entries of `new_map` whose name is absent from `old_map`, as
`vec![name, code]`. -/
def find_added_elements {α : Type} (fmt : α → String)
    (old_map new_map : List (String × α)) : List (List String) :=
  (new_map.filter (fun p => !(containsKey old_map p.1))).map
    (fun p => [p.1, fmt p.2])

/-- Loop body of `find_modified_func_elements` for one entry of the old
map: look the name up in the new map, compare the two renderings, and emit
`vec![name, old_code, new_code]` when they differ. -/
def modifiedEntry {α : Type} (fmt : α → String) (new_map : List (String × α))
    (p : String × α) : List (List String) :=
  match lookupKey new_map p.1 with
  | some new_node =>
      if fmt p.2 = fmt new_node then [] else [[p.1, fmt p.2, fmt new_node]]
  | none => []

/-- Model of `differ.rs::find_modified_func_elements` and its three
per-type clones: entries of `old_map` whose name is also in `new_map` and
whose renderings differ, as `vec![name, old_code, new_code]`. -/
def find_modified_elements {α : Type} (fmt : α → String)
    (old_map new_map : List (String × α)) : List (List String) :=
  old_map.flatMap (modifiedEntry fmt new_map)

/-- Model of `differ.rs::find_deleted_func_elements` and its three per-type
clones: entries of `old_map` whose name is absent from `new_map`. -/
def find_deleted_elements {α : Type} (fmt : α → String)
    (old_map new_map : List (String × α)) : List (List String) :=
  (old_map.filter (fun p => !(containsKey new_map p.1))).map
    (fun p => [p.1, fmt p.2])

/-- Model of `differ.rs::compare_asts` (lines 12-103).  `fmtF`, `fmtT`,
`fmtI` stand for `format_node` at the three node types; for methods the
stored pair `(ItemImpl, ItemFn)` is formatted on its `ItemFn` component
only, exactly as the source destructures `(_, method_decl)`.  The
`package_name` parameter is received but never read, as in the source. -/
def compare_asts {F T I M : Type} (fmtF : F → String) (fmtT : T → String)
    (fmtI : I → String) (old_ast new_ast : FileASTData F T I M)
    (package_name : String) (file_path : String)
    (is_new_file is_removed_file : Bool) : DetailedChanges :=
  let changes := DetailedChanges.new file_path
  if is_new_file then
    { changes with
      added_functions := new_ast.functions.map (fun p => [p.1, fmtF p.2])
      added_types := new_ast.types.map (fun p => [p.1, fmtT p.2])
      added_interfaces := new_ast.interfaces.map (fun p => [p.1, fmtI p.2])
      added_methods := new_ast.methods.map (fun p => [p.1, fmtF p.2.2]) }
  else if is_removed_file then
    { changes with
      deleted_functions := old_ast.functions.map (fun p => [p.1, fmtF p.2])
      deleted_types := old_ast.types.map (fun p => [p.1, fmtT p.2])
      deleted_interfaces := old_ast.interfaces.map (fun p => [p.1, fmtI p.2])
      deleted_methods := old_ast.methods.map (fun p => [p.1, fmtF p.2.2]) }
  else
    { changes with
      added_functions := find_added_elements fmtF old_ast.functions new_ast.functions
      modified_functions := find_modified_elements fmtF old_ast.functions new_ast.functions
      deleted_functions := find_deleted_elements fmtF old_ast.functions new_ast.functions
      added_types := find_added_elements fmtT old_ast.types new_ast.types
      modified_types := find_modified_elements fmtT old_ast.types new_ast.types
      deleted_types := find_deleted_elements fmtT old_ast.types new_ast.types
      added_interfaces := find_added_elements fmtI old_ast.interfaces new_ast.interfaces
      modified_interfaces := find_modified_elements fmtI old_ast.interfaces new_ast.interfaces
      deleted_interfaces := find_deleted_elements fmtI old_ast.interfaces new_ast.interfaces
      added_methods :=
        find_added_elements (fun p => fmtF p.2) old_ast.methods new_ast.methods
      modified_methods :=
        find_modified_elements (fun p => fmtF p.2) old_ast.methods new_ast.methods
      deleted_methods :=
        find_deleted_elements (fun p => fmtF p.2) old_ast.methods new_ast.methods }

/-- Self type of an `impl` block, model of `syn::Type` as far as
`process_impl_block` matches it: a path (with its segments) or any other
type shape. -/
inductive SynType where
  | path (segments : List String)
  | nonPath
deriving DecidableEq, Repr

/-- Name-resolution step of `process_impl_block` (ast_parser.rs lines
137-146): a path self type resolves to its last segment; an empty path or a
non-path self type does not resolve. -/
def resolveSelfTypeName : SynType → Option String
  | .path segments => segments.getLast?
  | .nonPath => none

/-- Top-level items of a parsed file as `process_file_items` distinguishes
them (ast_parser.rs lines 75-132).  Node payloads are abstract: `ν` stands
for the function-like node stored in the maps (`ItemFn` or the per-kind
item node), `μ` for the owning `ItemImpl` clone stored next to each
method.  `implBlockItem` carries the resolved member list (name,
reconstructed standalone `ItemFn`), `otherItem` covers every ignored item
kind. -/
inductive SrcItem (ν μ : Type) where
  | fnItem (name : String) (node : ν)
  | implBlockItem (selfTy : SynType) (implNode : μ) (members : List (String × ν))
  | traitItem (name : String) (node : ν)
  | structItem (name : String) (node : ν)
  | enumItem (name : String) (node : ν)
  | typeAliasItem (name : String) (node : ν)
  | otherItem

/-- Model of `HashMap::insert`: overwrite the entry for `k` if present,
otherwise append. -/
def insertKV {α : Type} : List (String × α) → String → α → List (String × α)
  | [], k, v => [(k, v)]
  | (k₁, v₁) :: rest, k, v =>
      if k₁ = k then (k, v) :: rest else (k₁, v₁) :: insertKV rest k v

/-- Model of `ast_parser.rs::process_impl_block` (lines 135-168): if the
self type resolves to a simple name, insert every function-like member as
`"<TypeName>.<method>"` paired with the owning impl node; otherwise return
the data untouched (the whole block is skipped). -/
def process_impl_block {ν μ : Type} (selfTy : SynType) (implNode : μ)
    (members : List (String × ν)) (ast_data : FileASTData ν ν ν μ) :
    FileASTData ν ν ν μ :=
  match resolveSelfTypeName selfTy with
  | none => ast_data
  | some type_name =>
      members.foldl (fun acc m =>
        { acc with
          methods := insertKV acc.methods (type_name ++ "." ++ m.1) (implNode, m.2) })
        ast_data

/-- Single-item step of `process_file_items`: functions, traits and the
three type-like kinds insert into their maps keyed by the item name; impl
blocks go through `process_impl_block`; every other item kind is ignored. -/
def processItem {ν μ : Type} (ast_data : FileASTData ν ν ν μ) :
    SrcItem ν μ → FileASTData ν ν ν μ
  | .fnItem name node => { ast_data with functions := insertKV ast_data.functions name node }
  | .implBlockItem selfTy implNode members =>
      process_impl_block selfTy implNode members ast_data
  | .traitItem name node => { ast_data with interfaces := insertKV ast_data.interfaces name node }
  | .structItem name node => { ast_data with types := insertKV ast_data.types name node }
  | .enumItem name node => { ast_data with types := insertKV ast_data.types name node }
  | .typeAliasItem name node => { ast_data with types := insertKV ast_data.types name node }
  | .otherItem => ast_data

/-- Model of `FileASTData::new`. -/
def FileASTData.new {ν μ : Type} (file_path file_content : String) :
    FileASTData ν ν ν μ :=
  { functions := [], types := [], interfaces := [], methods := []
    file_content := file_content, file_path := file_path }

/-- Model of `ast_parser.rs::process_file_items`: a single left-to-right
pass over the file's top-level items starting from a fresh `FileASTData`.
Item processing itself is total; `extract_file_ast` can fail only before it
runs (unreadable or unparsable file). -/
def process_file_items {ν μ : Type} (items : List (SrcItem ν μ))
    (file_path file_content : String) : FileASTData ν ν ν μ :=
  items.foldl processItem (FileASTData.new file_path file_content)

/-- Names carried by a list of `vec![name, ...]` entry vectors: the head of
each vector. -/
def namesOf (l : List (List String)) : List String :=
  l.filterMap List.head?

theorem containsKey_iff {α : Type} (m : List (String × α)) (k : String) :
    containsKey m k = true ↔ k ∈ keys m := by
  simp [containsKey, keys, List.any_eq_true, List.mem_map]

theorem containsKey_eq_false_iff {α : Type} (m : List (String × α)) (k : String) :
    containsKey m k = false ↔ k ∉ keys m := by
  rw [← Bool.not_eq_true, not_iff_not]
  exact containsKey_iff m k

theorem mem_keys_of_mem {α : Type} {m : List (String × α)} {k : String} {v : α}
    (h : (k, v) ∈ m) : k ∈ keys m :=
  List.mem_map.mpr ⟨(k, v), h, rfl⟩

theorem lookupKey_mem {α : Type} {m : List (String × α)} {k : String} {v : α}
    (h : lookupKey m k = some v) : (k, v) ∈ m := by
  unfold lookupKey at h
  cases hf : m.find? (fun p => p.1 == k) with
  | none => rw [hf] at h; simp at h
  | some p =>
      rw [hf] at h
      simp at h
      have hmem := List.mem_of_find?_eq_some hf
      have hpred := List.find?_some hf
      obtain ⟨k₁, v₁⟩ := p
      simp only [beq_iff_eq] at hpred
      subst hpred; subst h
      exact hmem

theorem lookupKey_mem_keys {α : Type} {m : List (String × α)} {k : String} {v : α}
    (h : lookupKey m k = some v) : k ∈ keys m :=
  mem_keys_of_mem (lookupKey_mem h)

theorem lookupKey_of_nodup {α : Type} {m : List (String × α)}
    (hn : (keys m).Nodup) {k : String} {v : α} (hm : (k, v) ∈ m) :
    lookupKey m k = some v := by
  induction m with
  | nil => cases hm
  | cons p rest ih =>
      have hn' : p.1 ∉ keys rest ∧ (keys rest).Nodup := by
        simpa [keys, List.nodup_cons] using hn
      rcases List.mem_cons.mp hm with heq | hmem
      · subst heq
        have hfind : List.find? (fun q => q.1 == k) ((k, v) :: rest) = some (k, v) :=
          List.find?_cons_of_pos _ (by simp)
        unfold lookupKey
        rw [hfind]
        rfl
      · have hk : k ∈ keys rest := mem_keys_of_mem hmem
        have hne : ¬(((fun q : String × α => q.1 == k) p) = true) := by
          simp only [beq_iff_eq]
          intro hc
          exact hn'.1 (hc ▸ hk)
        have hfind : List.find? (fun q => q.1 == k) (p :: rest) =
            List.find? (fun q => q.1 == k) rest :=
          List.find?_cons_of_neg _ hne
        unfold lookupKey
        rw [hfind]
        exact ih hn'.2 hmem

theorem modifiedEntry_of_none {α : Type} {fmt : α → String}
    {new_map : List (String × α)} {p : String × α}
    (h : lookupKey new_map p.1 = none) : modifiedEntry fmt new_map p = [] := by
  unfold modifiedEntry
  rw [h]

theorem modifiedEntry_of_some {α : Type} {fmt : α → String}
    {new_map : List (String × α)} {p : String × α} {b : α}
    (h : lookupKey new_map p.1 = some b) :
    modifiedEntry fmt new_map p =
      if fmt p.2 = fmt b then [] else [[p.1, fmt p.2, fmt b]] := by
  unfold modifiedEntry
  rw [h]

theorem mem_namesOf_find_added {α : Type} (fmt : α → String)
    (old_map new_map : List (String × α)) (n : String) :
    n ∈ namesOf (find_added_elements fmt old_map new_map) ↔
      n ∈ keys new_map ∧ n ∉ keys old_map := by
  simp only [namesOf, find_added_elements, List.filterMap_map, List.mem_filterMap,
    List.mem_filter, Function.comp, List.head?, Option.some.injEq]
  constructor
  · rintro ⟨p, ⟨hmem, hq⟩, hhead⟩
    rw [Bool.not_eq_eq_eq_not, Bool.not_true] at hq
    exact ⟨hhead ▸ mem_keys_of_mem hmem,
           hhead ▸ (containsKey_eq_false_iff old_map p.1).mp hq⟩
  · rintro ⟨hnew, hold⟩
    obtain ⟨p, hmem, hp⟩ := List.mem_map.mp hnew
    refine ⟨p, ⟨hmem, ?_⟩, hp⟩
    rw [Bool.not_eq_eq_eq_not, Bool.not_true]
    exact (containsKey_eq_false_iff old_map p.1).mpr (hp ▸ hold)

theorem mem_namesOf_find_deleted {α : Type} (fmt : α → String)
    (old_map new_map : List (String × α)) (n : String) :
    n ∈ namesOf (find_deleted_elements fmt old_map new_map) ↔
      n ∈ keys old_map ∧ n ∉ keys new_map :=
  mem_namesOf_find_added fmt new_map old_map n

theorem mem_namesOf_find_modified {α : Type} (fmt : α → String)
    {old_map : List (String × α)} (new_map : List (String × α))
    (hn : (keys old_map).Nodup) (n : String) :
    n ∈ namesOf (find_modified_elements fmt old_map new_map) ↔
      ∃ a b, lookupKey old_map n = some a ∧ lookupKey new_map n = some b ∧
        fmt a ≠ fmt b := by
  simp only [namesOf, find_modified_elements, List.mem_filterMap, List.mem_flatMap]
  constructor
  · rintro ⟨xs, ⟨p, hmem, hxs⟩, hhead⟩
    cases hlk : lookupKey new_map p.1 with
    | none => rw [modifiedEntry_of_none hlk] at hxs; cases hxs
    | some b =>
        rw [modifiedEntry_of_some hlk] at hxs
        by_cases hfmt : fmt p.2 = fmt b
        · rw [if_pos hfmt] at hxs; cases hxs
        · rw [if_neg hfmt] at hxs
          rcases List.mem_singleton.mp hxs with rfl
          simp only [List.head?, Option.some.injEq] at hhead
          subst hhead
          exact ⟨p.2, b, lookupKey_of_nodup hn hmem, hlk, hfmt⟩
  · rintro ⟨a, b, hoa, hnb, hfmt⟩
    refine ⟨[n, fmt a, fmt b], ⟨(n, a), lookupKey_mem hoa, ?_⟩, rfl⟩
    rw [modifiedEntry_of_some hnb, if_neg hfmt]
    exact List.mem_singleton.mpr rfl

theorem mem_namesOf_find_modified_keys {α : Type} {fmt : α → String}
    {old_map new_map : List (String × α)} {n : String}
    (h : n ∈ namesOf (find_modified_elements fmt old_map new_map)) :
    n ∈ keys old_map ∧ n ∈ keys new_map := by
  simp only [namesOf, find_modified_elements, List.mem_filterMap, List.mem_flatMap] at h
  obtain ⟨xs, ⟨p, hmem, hxs⟩, hhead⟩ := h
  cases hlk : lookupKey new_map p.1 with
  | none => rw [modifiedEntry_of_none hlk] at hxs; cases hxs
  | some b =>
      rw [modifiedEntry_of_some hlk] at hxs
      by_cases hfmt : fmt p.2 = fmt b
      · rw [if_pos hfmt] at hxs; cases hxs
      · rw [if_neg hfmt] at hxs
        rcases List.mem_singleton.mp hxs with rfl
        simp only [List.head?, Option.some.injEq] at hhead
        subst hhead
        exact ⟨mem_keys_of_mem hmem, lookupKey_mem_keys hlk⟩

theorem find_added_self {α : Type} (fmt : α → String) (m : List (String × α)) :
    find_added_elements fmt m m = [] := by
  have h : m.filter (fun p => !(containsKey m p.1)) = [] := by
    rw [List.filter_eq_nil_iff]
    intro p hp
    simp only [Bool.not_eq_eq_eq_not, Bool.not_true]
    intro hc
    exact absurd ((containsKey_iff m p.1).mpr (mem_keys_of_mem hp))
      (by simp [hc])
  simp [find_added_elements, h]

theorem find_modified_self {α : Type} (fmt : α → String) {m : List (String × α)}
    (hn : (keys m).Nodup) : find_modified_elements fmt m m = [] := by
  rw [find_modified_elements, List.flatMap_eq_nil_iff]
  intro p hp
  rw [modifiedEntry_of_some (lookupKey_of_nodup hn hp), if_pos rfl]

theorem find_deleted_self {α : Type} (fmt : α → String) (m : List (String × α)) :
    find_deleted_elements fmt m m = [] :=
  find_added_self fmt m

/-- Claim C9: diffing a snapshot against itself with both file-state flags
false yields a report whose added, modified and deleted lists are all empty
in every category (and whose `module_name` is the file path), for any
snapshot whose per-category key sets satisfy the hash-map no-duplicate-keys
invariant. -/
theorem compare_asts_self_is_empty {F T I M : Type} (fmtF : F → String)
    (fmtT : T → String) (fmtI : I → String) (S : FileASTData F T I M)
    (package_name file_path : String)
    (h1 : (keys S.functions).Nodup) (h2 : (keys S.types).Nodup)
    (h3 : (keys S.interfaces).Nodup) (h4 : (keys S.methods).Nodup) :
    compare_asts fmtF fmtT fmtI S S package_name file_path false false
      = DetailedChanges.new file_path := by
  simp only [compare_asts, Bool.false_eq_true, if_false,
    find_added_self, find_deleted_self,
    find_modified_self fmtF h1, find_modified_self fmtT h2,
    find_modified_self fmtI h3, find_modified_self (fun p => fmtF p.2) h4,
    DetailedChanges.new]

/-- Witness for C9 at a concrete one-declaration-per-category snapshot. -/
theorem compare_asts_self_is_empty_witness :
    compare_asts (F := String) (T := String) (I := String) (M := String)
      id id id
      { functions := [("f", "fn f()")], types := [("T", "struct T")]
        interfaces := [("Tr", "trait Tr")], methods := [("T.m", ("impl T", "fn m()"))]
        file_content := "", file_path := "lib.rs" }
      { functions := [("f", "fn f()")], types := [("T", "struct T")]
        interfaces := [("Tr", "trait Tr")], methods := [("T.m", ("impl T", "fn m()"))]
        file_content := "", file_path := "lib.rs" }
      "pkg" "lib.rs" false false
      = DetailedChanges.new "lib.rs" :=
  compare_asts_self_is_empty id id id _ "pkg" "lib.rs"
    (by decide) (by decide) (by decide) (by decide)

/-- Claim C10: the `package_name` argument of `compare_asts` has no
influence on the result, and the report's `module_name` is always the
`file_path` argument, for every flag setting. -/
theorem compare_asts_package_name_noninterference {F T I M : Type}
    (fmtF : F → String) (fmtT : T → String) (fmtI : I → String)
    (old_ast new_ast : FileASTData F T I M) (pkg1 pkg2 file_path : String)
    (is_new_file is_removed_file : Bool) :
    compare_asts fmtF fmtT fmtI old_ast new_ast pkg1 file_path
        is_new_file is_removed_file
      = compare_asts fmtF fmtT fmtI old_ast new_ast pkg2 file_path
        is_new_file is_removed_file
    ∧ (compare_asts fmtF fmtT fmtI old_ast new_ast pkg1 file_path
        is_new_file is_removed_file).module_name = file_path := by
  constructor
  · rfl
  · cases is_new_file <;> cases is_removed_file <;> rfl

/-- Claim C4 (amended): when `is_new_file` is true the report is
independent of the old snapshot, lists every declaration of the new
snapshot as added and nothing as modified or deleted; when
`is_removed_file` is true AND `is_new_file` is false the report is
independent of the new snapshot, lists every declaration of the old
snapshot as deleted and nothing as added or modified.  (The unamended
claim fails when both flags are true: the `is_new_file` branch is checked
first and then the report does depend on the new snapshot; see the
counterexample.) -/
theorem compare_asts_file_state_noninterference {F T I M : Type}
    (fmtF : F → String) (fmtT : T → String) (fmtI : I → String)
    (old1 old2 old_ast new_ast new1 new2 : FileASTData F T I M)
    (pkg file_path : String) (r : Bool) :
    (compare_asts fmtF fmtT fmtI old1 new_ast pkg file_path true r
       = compare_asts fmtF fmtT fmtI old2 new_ast pkg file_path true r)
    ∧ ((compare_asts fmtF fmtT fmtI old1 new_ast pkg file_path true r).added_functions
         = new_ast.functions.map (fun p => [p.1, fmtF p.2])
       ∧ (compare_asts fmtF fmtT fmtI old1 new_ast pkg file_path true r).added_types
         = new_ast.types.map (fun p => [p.1, fmtT p.2])
       ∧ (compare_asts fmtF fmtT fmtI old1 new_ast pkg file_path true r).added_interfaces
         = new_ast.interfaces.map (fun p => [p.1, fmtI p.2])
       ∧ (compare_asts fmtF fmtT fmtI old1 new_ast pkg file_path true r).added_methods
         = new_ast.methods.map (fun p => [p.1, fmtF p.2.2]))
    ∧ ((compare_asts fmtF fmtT fmtI old1 new_ast pkg file_path true r).modified_functions = []
       ∧ (compare_asts fmtF fmtT fmtI old1 new_ast pkg file_path true r).modified_types = []
       ∧ (compare_asts fmtF fmtT fmtI old1 new_ast pkg file_path true r).modified_interfaces = []
       ∧ (compare_asts fmtF fmtT fmtI old1 new_ast pkg file_path true r).modified_methods = []
       ∧ (compare_asts fmtF fmtT fmtI old1 new_ast pkg file_path true r).deleted_functions = []
       ∧ (compare_asts fmtF fmtT fmtI old1 new_ast pkg file_path true r).deleted_types = []
       ∧ (compare_asts fmtF fmtT fmtI old1 new_ast pkg file_path true r).deleted_interfaces = []
       ∧ (compare_asts fmtF fmtT fmtI old1 new_ast pkg file_path true r).deleted_methods = [])
    ∧ (compare_asts fmtF fmtT fmtI old_ast new1 pkg file_path false true
       = compare_asts fmtF fmtT fmtI old_ast new2 pkg file_path false true)
    ∧ ((compare_asts fmtF fmtT fmtI old_ast new1 pkg file_path false true).deleted_functions
         = old_ast.functions.map (fun p => [p.1, fmtF p.2])
       ∧ (compare_asts fmtF fmtT fmtI old_ast new1 pkg file_path false true).deleted_types
         = old_ast.types.map (fun p => [p.1, fmtT p.2])
       ∧ (compare_asts fmtF fmtT fmtI old_ast new1 pkg file_path false true).deleted_interfaces
         = old_ast.interfaces.map (fun p => [p.1, fmtI p.2])
       ∧ (compare_asts fmtF fmtT fmtI old_ast new1 pkg file_path false true).deleted_methods
         = old_ast.methods.map (fun p => [p.1, fmtF p.2.2])
       ∧ (compare_asts fmtF fmtT fmtI old_ast new1 pkg file_path false true).added_functions = []
       ∧ (compare_asts fmtF fmtT fmtI old_ast new1 pkg file_path false true).added_types = []
       ∧ (compare_asts fmtF fmtT fmtI old_ast new1 pkg file_path false true).added_interfaces = []
       ∧ (compare_asts fmtF fmtT fmtI old_ast new1 pkg file_path false true).added_methods = []
       ∧ (compare_asts fmtF fmtT fmtI old_ast new1 pkg file_path false true).modified_functions = []
       ∧ (compare_asts fmtF fmtT fmtI old_ast new1 pkg file_path false true).modified_types = []
       ∧ (compare_asts fmtF fmtT fmtI old_ast new1 pkg file_path false true).modified_interfaces = []
       ∧ (compare_asts fmtF fmtT fmtI old_ast new1 pkg file_path false true).modified_methods = []) :=
  ⟨rfl, ⟨rfl, rfl, rfl, rfl⟩, ⟨rfl, rfl, rfl, rfl, rfl, rfl, rfl, rfl⟩, rfl,
   ⟨rfl, rfl, rfl, rfl, rfl, rfl, rfl, rfl, rfl, rfl, rfl, rfl⟩⟩

/-- Snapshot with one function, used by the C4 counterexample. -/
def c4OldSnap : FileASTData String String String String :=
  { functions := [("old_fn", "fn old_fn()")], types := [], interfaces := []
    methods := [], file_content := "", file_path := "m.rs" }

/-- New-side snapshot with one function, used by the C4 counterexample. -/
def c4NewSnapA : FileASTData String String String String :=
  { functions := [("new_fn", "fn new_fn()")], types := [], interfaces := []
    methods := [], file_content := "", file_path := "m.rs" }

/-- Empty new-side snapshot, used by the C4 counterexample. -/
def c4NewSnapB : FileASTData String String String String :=
  { functions := [], types := [], interfaces := []
    methods := [], file_content := "", file_path := "m.rs" }

/-- Counterexample to C4 as stated: with `is_removed_file = true` but also
`is_new_file = true`, the report is NOT independent of the new snapshot —
the `is_new_file` branch wins and the new snapshot's function appears as
added (so two different new snapshots give two different reports), and the
old snapshot's function is not listed as deleted. -/
theorem compare_asts_deleted_flag_counterexample :
    (compare_asts id id id c4OldSnap c4NewSnapA "pkg" "m.rs" true true).added_functions
      = [["new_fn", "fn new_fn()"]]
    ∧ (compare_asts id id id c4OldSnap c4NewSnapB "pkg" "m.rs" true true).added_functions
      = []
    ∧ (decide (compare_asts id id id c4OldSnap c4NewSnapA "pkg" "m.rs" true true
         = compare_asts id id id c4OldSnap c4NewSnapB "pkg" "m.rs" true true)) = false
    ∧ (compare_asts id id id c4OldSnap c4NewSnapA "pkg" "m.rs" true true).deleted_functions
      = [] :=
  ⟨rfl, rfl, by decide, rfl⟩

/-- Claim C3: in the normal case (both flags false) each category is
compared independently, and for every name: membership in the added list is
`keys(new) − keys(old)`, membership in the deleted list is
`keys(old) − keys(new)`, and membership in the modified list means the name
is present on both sides with differing canonical renderings.  The old-side
key sets carry the hash-map no-duplicate-keys invariant. -/
theorem compare_asts_normal_case_characterization {F T I M : Type}
    (fmtF : F → String) (fmtT : T → String) (fmtI : I → String)
    (old_ast new_ast : FileASTData F T I M) (pkg file_path n : String)
    (hf : (keys old_ast.functions).Nodup) (ht : (keys old_ast.types).Nodup)
    (hi : (keys old_ast.interfaces).Nodup) (hm : (keys old_ast.methods).Nodup) :
    (n ∈ namesOf (compare_asts fmtF fmtT fmtI old_ast new_ast pkg file_path false false).added_functions
       ↔ n ∈ keys new_ast.functions ∧ n ∉ keys old_ast.functions)
    ∧ (n ∈ namesOf (compare_asts fmtF fmtT fmtI old_ast new_ast pkg file_path false false).deleted_functions
       ↔ n ∈ keys old_ast.functions ∧ n ∉ keys new_ast.functions)
    ∧ (n ∈ namesOf (compare_asts fmtF fmtT fmtI old_ast new_ast pkg file_path false false).modified_functions
       ↔ ∃ a b, lookupKey old_ast.functions n = some a
           ∧ lookupKey new_ast.functions n = some b ∧ fmtF a ≠ fmtF b)
    ∧ (n ∈ namesOf (compare_asts fmtF fmtT fmtI old_ast new_ast pkg file_path false false).added_types
       ↔ n ∈ keys new_ast.types ∧ n ∉ keys old_ast.types)
    ∧ (n ∈ namesOf (compare_asts fmtF fmtT fmtI old_ast new_ast pkg file_path false false).deleted_types
       ↔ n ∈ keys old_ast.types ∧ n ∉ keys new_ast.types)
    ∧ (n ∈ namesOf (compare_asts fmtF fmtT fmtI old_ast new_ast pkg file_path false false).modified_types
       ↔ ∃ a b, lookupKey old_ast.types n = some a
           ∧ lookupKey new_ast.types n = some b ∧ fmtT a ≠ fmtT b)
    ∧ (n ∈ namesOf (compare_asts fmtF fmtT fmtI old_ast new_ast pkg file_path false false).added_interfaces
       ↔ n ∈ keys new_ast.interfaces ∧ n ∉ keys old_ast.interfaces)
    ∧ (n ∈ namesOf (compare_asts fmtF fmtT fmtI old_ast new_ast pkg file_path false false).deleted_interfaces
       ↔ n ∈ keys old_ast.interfaces ∧ n ∉ keys new_ast.interfaces)
    ∧ (n ∈ namesOf (compare_asts fmtF fmtT fmtI old_ast new_ast pkg file_path false false).modified_interfaces
       ↔ ∃ a b, lookupKey old_ast.interfaces n = some a
           ∧ lookupKey new_ast.interfaces n = some b ∧ fmtI a ≠ fmtI b)
    ∧ (n ∈ namesOf (compare_asts fmtF fmtT fmtI old_ast new_ast pkg file_path false false).added_methods
       ↔ n ∈ keys new_ast.methods ∧ n ∉ keys old_ast.methods)
    ∧ (n ∈ namesOf (compare_asts fmtF fmtT fmtI old_ast new_ast pkg file_path false false).deleted_methods
       ↔ n ∈ keys old_ast.methods ∧ n ∉ keys new_ast.methods)
    ∧ (n ∈ namesOf (compare_asts fmtF fmtT fmtI old_ast new_ast pkg file_path false false).modified_methods
       ↔ ∃ a b, lookupKey old_ast.methods n = some a
           ∧ lookupKey new_ast.methods n = some b ∧ fmtF a.2 ≠ fmtF b.2) :=
  ⟨mem_namesOf_find_added fmtF old_ast.functions new_ast.functions n,
   mem_namesOf_find_deleted fmtF old_ast.functions new_ast.functions n,
   mem_namesOf_find_modified fmtF new_ast.functions hf n,
   mem_namesOf_find_added fmtT old_ast.types new_ast.types n,
   mem_namesOf_find_deleted fmtT old_ast.types new_ast.types n,
   mem_namesOf_find_modified fmtT new_ast.types ht n,
   mem_namesOf_find_added fmtI old_ast.interfaces new_ast.interfaces n,
   mem_namesOf_find_deleted fmtI old_ast.interfaces new_ast.interfaces n,
   mem_namesOf_find_modified fmtI new_ast.interfaces hi n,
   mem_namesOf_find_added (fun (p : M × F) => fmtF p.2) old_ast.methods new_ast.methods n,
   mem_namesOf_find_deleted (fun (p : M × F) => fmtF p.2) old_ast.methods new_ast.methods n,
   mem_namesOf_find_modified (fun (p : M × F) => fmtF p.2) new_ast.methods hm n⟩

/-- Old-side snapshot with functions `a` (rendered "fn a v1") and `c`,
shared by the C3 and C8 witnesses. -/
def sampleOldSnap : FileASTData String String String String :=
  { functions := [("a", "fn a v1"), ("c", "fn c")], types := [], interfaces := []
    methods := [], file_content := "", file_path := "s.rs" }

/-- New-side snapshot with functions `a` (rendered "fn a v2") and `b`,
shared by the C3 and C8 witnesses. -/
def sampleNewSnap : FileASTData String String String String :=
  { functions := [("a", "fn a v2"), ("b", "fn b")], types := [], interfaces := []
    methods := [], file_content := "", file_path := "s.rs" }

/-- Witness for C3 at the concrete snapshot pair: the name `b` is added
exactly because it is a key of new and not of old. -/
theorem compare_asts_normal_case_characterization_witness :
    "b" ∈ namesOf (compare_asts id id id sampleOldSnap sampleNewSnap
        "pkg" "s.rs" false false).added_functions
      ↔ "b" ∈ keys sampleNewSnap.functions ∧ "b" ∉ keys sampleOldSnap.functions :=
  (compare_asts_normal_case_characterization id id id sampleOldSnap sampleNewSnap
    "pkg" "s.rs" "b" (by decide) (by decide) (by decide) (by decide)).1

/-- Per-category disjointness shape used by claim C8: a name in the added
list is in neither the modified nor the deleted list, and a name in the
modified list is not in the deleted list. -/
def pairwiseNameDisjoint (addedL modifiedL deletedL : List (List String)) : Prop :=
  ∀ n : String,
    (n ∈ namesOf addedL → n ∉ namesOf modifiedL ∧ n ∉ namesOf deletedL)
    ∧ (n ∈ namesOf modifiedL → n ∉ namesOf deletedL)

theorem pairwiseNameDisjoint_of_nil_nil (addedL : List (List String)) :
    pairwiseNameDisjoint addedL [] [] := by
  intro n
  refine ⟨fun _ => ⟨?_, ?_⟩, fun h => ?_⟩ <;> simp [namesOf]

theorem pairwiseNameDisjoint_nil_nil_left (deletedL : List (List String)) :
    pairwiseNameDisjoint [] [] deletedL := by
  intro n
  refine ⟨fun h => absurd h ?_, fun h => absurd h ?_⟩ <;> simp [namesOf]

theorem find_elements_pairwiseNameDisjoint {α : Type} (fmt : α → String)
    (old_map new_map : List (String × α)) :
    pairwiseNameDisjoint (find_added_elements fmt old_map new_map)
      (find_modified_elements fmt old_map new_map)
      (find_deleted_elements fmt old_map new_map) := by
  intro n
  constructor
  · intro ha
    have h1 := (mem_namesOf_find_added fmt old_map new_map n).mp ha
    constructor
    · intro hmod
      exact absurd (mem_namesOf_find_modified_keys hmod).1 h1.2
    · intro hd
      exact absurd ((mem_namesOf_find_deleted fmt old_map new_map n).mp hd).1 h1.2
  · intro hmod hd
    exact absurd (mem_namesOf_find_modified_keys hmod).2
      ((mem_namesOf_find_deleted fmt old_map new_map n).mp hd).2

/-- Claim C8: in every report produced by `compare_asts` — any snapshots,
any flag setting — no declaration name occurs in more than one of a
category's added, modified and deleted lists. -/
theorem compare_asts_disjointness {F T I M : Type}
    (fmtF : F → String) (fmtT : T → String) (fmtI : I → String)
    (old_ast new_ast : FileASTData F T I M) (pkg file_path : String)
    (is_new_file is_removed_file : Bool) :
    pairwiseNameDisjoint
      (compare_asts fmtF fmtT fmtI old_ast new_ast pkg file_path is_new_file is_removed_file).added_functions
      (compare_asts fmtF fmtT fmtI old_ast new_ast pkg file_path is_new_file is_removed_file).modified_functions
      (compare_asts fmtF fmtT fmtI old_ast new_ast pkg file_path is_new_file is_removed_file).deleted_functions
    ∧ pairwiseNameDisjoint
      (compare_asts fmtF fmtT fmtI old_ast new_ast pkg file_path is_new_file is_removed_file).added_types
      (compare_asts fmtF fmtT fmtI old_ast new_ast pkg file_path is_new_file is_removed_file).modified_types
      (compare_asts fmtF fmtT fmtI old_ast new_ast pkg file_path is_new_file is_removed_file).deleted_types
    ∧ pairwiseNameDisjoint
      (compare_asts fmtF fmtT fmtI old_ast new_ast pkg file_path is_new_file is_removed_file).added_interfaces
      (compare_asts fmtF fmtT fmtI old_ast new_ast pkg file_path is_new_file is_removed_file).modified_interfaces
      (compare_asts fmtF fmtT fmtI old_ast new_ast pkg file_path is_new_file is_removed_file).deleted_interfaces
    ∧ pairwiseNameDisjoint
      (compare_asts fmtF fmtT fmtI old_ast new_ast pkg file_path is_new_file is_removed_file).added_methods
      (compare_asts fmtF fmtT fmtI old_ast new_ast pkg file_path is_new_file is_removed_file).modified_methods
      (compare_asts fmtF fmtT fmtI old_ast new_ast pkg file_path is_new_file is_removed_file).deleted_methods := by
  cases is_new_file with
  | true =>
      exact ⟨pairwiseNameDisjoint_of_nil_nil _, pairwiseNameDisjoint_of_nil_nil _,
        pairwiseNameDisjoint_of_nil_nil _, pairwiseNameDisjoint_of_nil_nil _⟩
  | false =>
      cases is_removed_file with
      | true =>
          exact ⟨pairwiseNameDisjoint_nil_nil_left _, pairwiseNameDisjoint_nil_nil_left _,
            pairwiseNameDisjoint_nil_nil_left _, pairwiseNameDisjoint_nil_nil_left _⟩
      | false =>
          exact ⟨find_elements_pairwiseNameDisjoint fmtF _ _,
            find_elements_pairwiseNameDisjoint fmtT _ _,
            find_elements_pairwiseNameDisjoint fmtI _ _,
            find_elements_pairwiseNameDisjoint (fun (p : M × F) => fmtF p.2)
              old_ast.methods new_ast.methods⟩

/-- Witness for C8 at the concrete snapshot pair: `b` is in the added
functions list, hence in neither the modified nor the deleted one. -/
theorem compare_asts_disjointness_witness :
    "b" ∉ namesOf (compare_asts id id id sampleOldSnap sampleNewSnap
        "pkg" "s.rs" false false).modified_functions
    ∧ "b" ∉ namesOf (compare_asts id id id sampleOldSnap sampleNewSnap
        "pkg" "s.rs" false false).deleted_functions :=
  ((compare_asts_disjointness id id id sampleOldSnap sampleNewSnap
      "pkg" "s.rs" false false).1 "b").1 (by decide)

/-- Specification-side description of the dedup policy of section 4.4
("duplicates collapsed preserving first occurrence"): keep each string's
first occurrence, dropping the later ones. -/
def specDedupFirstOccurrence : List String → List String
  | [] => []
  | s :: rest => s :: specDedupFirstOccurrence (rest.filter (fun t => !(t == s)))
termination_by l => l.length
decreasing_by
  simp only [List.length_cons]
  exact Nat.lt_succ_of_le (List.length_filter_le _ _)

theorem removeDuplicatesGo_eq_spec (l : List String) : ∀ seen : List String,
    removeDuplicatesGo seen l
      = specDedupFirstOccurrence (l.filter (fun s => !(seen.contains s))) := by
  induction l with
  | nil =>
      intro seen
      simp [removeDuplicatesGo, specDedupFirstOccurrence]
  | cons s rest ih =>
      intro seen
      rw [List.filter_cons]
      by_cases hs : seen.contains s = true
      · rw [removeDuplicatesGo, if_pos hs]
        simp only [hs, Bool.not_true, Bool.false_eq_true, if_false]
        exact ih seen
      · have hb : seen.contains s = false := Bool.not_eq_true _ ▸ hs
        rw [removeDuplicatesGo, if_neg hs]
        simp only [hb, Bool.not_false, if_true]
        rw [specDedupFirstOccurrence, ih (s :: seen)]
        congr 1
        rw [List.filter_filter]
        congr 1
        apply List.filter_congr
        intro t _
        simp only [List.contains_cons, Bool.not_or]

theorem remove_duplicates_eq_spec (l : List String) :
    remove_duplicates l = specDedupFirstOccurrence l := by
  rw [remove_duplicates, removeDuplicatesGo_eq_spec]
  congr 1
  simp

/-- Claim C2: `added_functions` is the list of call labels of the new body
that occur nowhere (by exact label equality) in the old body's call list,
in the order encountered in the new body, with duplicates collapsed to the
first occurrence; `removed_functions` is symmetric from the old side.  In
particular, old calls `[f, g, f]` against new calls `[g, h]` give
`added = [h]` and `removed = [f]`. -/
theorem compare_called_functions_call_delta (old_func new_func : ItemFn)
    (old_path new_path : String) :
    ((compare_called_functions old_func new_func old_path new_path).added_functions
       = specDedupFirstOccurrence ((extract_function_calls new_func).filter
           (fun call => !((extract_function_calls old_func).contains call))))
    ∧ ((compare_called_functions old_func new_func old_path new_path).removed_functions
       = specDedupFirstOccurrence ((extract_function_calls old_func).filter
           (fun call => !((extract_function_calls new_func).contains call))))
    ∧ (extract_function_calls old_func = ["f", "g", "f"] →
       extract_function_calls new_func = ["g", "h"] →
       (compare_called_functions old_func new_func old_path new_path).added_functions = ["h"]
       ∧ (compare_called_functions old_func new_func old_path new_path).removed_functions
         = ["f"]) := by
  have hadd : (compare_called_functions old_func new_func old_path new_path).added_functions
      = remove_duplicates ((extract_function_calls new_func).filter
          (fun call => !((extract_function_calls old_func).contains call))) := rfl
  have hrem : (compare_called_functions old_func new_func old_path new_path).removed_functions
      = remove_duplicates ((extract_function_calls old_func).filter
          (fun call => !((extract_function_calls new_func).contains call))) := rfl
  refine ⟨?_, ?_, ?_⟩
  · rw [hadd, remove_duplicates_eq_spec]
  · rw [hrem, remove_duplicates_eq_spec]
  · intro ho hn
    constructor
    · rw [hadd, ho, hn]; rfl
    · rw [hrem, ho, hn]; rfl

/-- Function body whose call list is `[f, g, f]`, for the C2 witness. -/
def c2OldFn : ItemFn :=
  { body := [.call (.path ["f"]) [], .call (.path ["g"]) [], .call (.path ["f"]) []]
    span := ⟨1, 0, 3, 1⟩ }

/-- Function body whose call list is `[g, h]`, for the C2 witness. -/
def c2NewFn : ItemFn :=
  { body := [.call (.path ["g"]) [], .call (.path ["h"]) []]
    span := ⟨1, 0, 2, 1⟩ }

/-- Witness for C2 at the concrete `[f, g, f]` / `[g, h]` bodies. -/
theorem compare_called_functions_call_delta_witness :
    (compare_called_functions c2OldFn c2NewFn "a.rs" "b.rs").added_functions = ["h"]
    ∧ (compare_called_functions c2OldFn c2NewFn "a.rs" "b.rs").removed_functions = ["f"] :=
  (compare_called_functions_call_delta c2OldFn c2NewFn "a.rs" "b.rs").2.2 rfl rfl

/-- Claim C1 (amended): the literal delta is a plain containment test, not
a multiset difference — when the old body's literal list is
`[INT:1, INT:1]` and the new body's is `[INT:1]`, every old occurrence
finds a match in the new list, so `removed_literals` is empty (not
`[INT:1]`), and `added_literals` is empty too.  Repeated identical
literals are each reported only when no occurrence at all exists on the
other side. -/
theorem literal_delta_is_containment (old_func new_func : ItemFn)
    (old_path new_path : String)
    (ho : extract_literals old_func = [⟨"INT", "1"⟩, ⟨"INT", "1"⟩])
    (hn : extract_literals new_func = [⟨"INT", "1"⟩]) :
    (compare_called_functions old_func new_func old_path new_path).removed_literals = []
    ∧ (compare_called_functions old_func new_func old_path new_path).added_literals = [] := by
  have hr : (compare_called_functions old_func new_func old_path new_path).removed_literals
      = (extract_literals old_func).filter (fun l =>
          !((extract_literals new_func).any (fun new_lit =>
              new_lit.type_name == l.type_name && new_lit.value == l.value))) := rfl
  have ha : (compare_called_functions old_func new_func old_path new_path).added_literals
      = (extract_literals new_func).filter (fun l =>
          !((extract_literals old_func).any (fun old_lit =>
              old_lit.type_name == l.type_name && old_lit.value == l.value))) := rfl
  constructor
  · rw [hr, ho, hn]; rfl
  · rw [ha, ho, hn]; rfl

/-- Function body with literal list `[INT:1, INT:1]`, for C1. -/
def c1OldFn : ItemFn :=
  { body := [.lit (.int "1"), .lit (.int "1")], span := ⟨1, 0, 3, 1⟩ }

/-- Function body with literal list `[INT:1]`, for C1. -/
def c1NewFn : ItemFn :=
  { body := [.lit (.int "1")], span := ⟨1, 0, 2, 1⟩ }

/-- Counterexample to C1 as stated: at the claim's exact scenario
(old literals `[INT:1, INT:1]`, new literals `[INT:1]`) the code computes
`removed_literals = []`, not the claimed one-entry list `[INT:1]`. -/
theorem literal_delta_counterexample :
    extract_literals c1OldFn = [⟨"INT", "1"⟩, ⟨"INT", "1"⟩]
    ∧ extract_literals c1NewFn = [⟨"INT", "1"⟩]
    ∧ (compare_called_functions c1OldFn c1NewFn "a.rs" "a.rs").removed_literals = []
    ∧ (decide ((compare_called_functions c1OldFn c1NewFn "a.rs" "a.rs").removed_literals
        = [(⟨"INT", "1"⟩ : TypedLiteral)])) = false :=
  ⟨rfl, rfl, rfl, by decide⟩

/-- Witness for C1's amended statement at the concrete bodies. -/
theorem literal_delta_is_containment_witness :
    (compare_called_functions c1OldFn c1NewFn "a.rs" "a.rs").removed_literals = []
    ∧ (compare_called_functions c1OldFn c1NewFn "a.rs" "a.rs").added_literals = [] :=
  literal_delta_is_containment c1OldFn c1NewFn "a.rs" "a.rs" rfl rfl

/-- Claim C5 (bug evidence): `LiteralVisitor::visit_lit` tags a C-string
literal `"BYTE"` with a `Debug`-formatted value, not `"CSTR"` with the
canonical value as the specification states; the other single-token
literal kinds carry the specified tags and canonical values.  Shown here
by evaluating the embedded visitor on one literal of each kind. -/
theorem visit_lit_tags_cstr_as_byte :
    visit_lit (.cstr "hi") = [⟨"BYTE", "\"hi\""⟩]
    ∧ (visit_lit (.cstr "hi")).map TypedLiteral.type_name = ["BYTE"]
    ∧ (decide (visit_lit (.cstr "hi") = [(⟨"CSTR", "hi"⟩ : TypedLiteral)])) = false
    ∧ visit_lit (.str "x") = [⟨"STRING", "x"⟩]
    ∧ visit_lit (.int "42") = [⟨"INT", "42"⟩]
    ∧ visit_lit (.float "3.14") = [⟨"FLOAT", "3.14"⟩]
    ∧ visit_lit (.bool true) = [⟨"BOOL", "true"⟩]
    ∧ visit_lit (.char 'a') = [⟨"CHAR", "a"⟩]
    ∧ visit_lit (.byte 104) = [⟨"BYTE", "104"⟩]
    ∧ visit_lit (.byteStr [104, 105]) = [⟨"BYTE_STR", "[104, 105]"⟩]
    ∧ (visit_lit (.verbatim "0suffix")).map TypedLiteral.type_name = ["VERBATIM"] :=
  ⟨rfl, rfl, by decide, rfl, rfl, rfl, rfl, rfl, rfl, by decide, rfl⟩

theorem mem_callVisitList_of_mem {l : List Expr} {a : Expr} (ha : a ∈ l)
    {x : String} (hx : x ∈ callVisitExpr a) : x ∈ callVisitList l := by
  induction l with
  | nil => cases ha
  | cons e es ih =>
      rw [callVisitList]
      rcases List.mem_cons.mp ha with rfl | h
      · exact List.mem_append.mpr (Or.inl hx)
      · exact List.mem_append.mpr (Or.inr (ih h))

theorem mem_freeVisitList_of_mem {l : List Expr} {a : Expr} (ha : a ∈ l)
    {x : String} (hx : x ∈ freeVisitExpr a) : x ∈ freeVisitList l := by
  induction l with
  | nil => cases ha
  | cons e es ih =>
      rw [freeVisitList]
      rcases List.mem_cons.mp ha with rfl | h
      · exact List.mem_append.mpr (Or.inl hx)
      · exact List.mem_append.mpr (Or.inr (ih h))

/-- Claim C6 (amended): the call walker does recursively walk arguments,
receivers and field-access callee bases, but through syn's free
`visit::visit_expr`, which bypasses the labelling override at exactly that
immediate child node and re-enters it for all deeper sub-expressions.  So
everything the free walk of an argument, receiver or field base collects
is in the enclosing call's output (parts 1-4); the free walk of a
call-shaped child collects the labels of the child's own callee, receiver
and sub-arguments with the full dispatch, and agrees with the override on
every non-call-shaped child (parts 5-7).  A call sitting DIRECTLY as an
argument, receiver or field base is therefore not labelled itself, and
callees that are neither paths nor field accesses, as well as macro token
trees, are not walked at all (see the counterexample). -/
theorem call_walker_traverses_receivers_and_arguments :
    (∀ (func : Expr) (args : List Expr) (a : Expr) (x : String),
        a ∈ args → x ∈ freeVisitExpr a → x ∈ callVisitExpr (.call func args))
    ∧ (∀ (receiver : Expr) (method : String) (args : List Expr) (x : String),
        x ∈ freeVisitExpr receiver → x ∈ callVisitExpr (.methodCall receiver method args))
    ∧ (∀ (receiver : Expr) (method : String) (args : List Expr) (a : Expr) (x : String),
        a ∈ args → x ∈ freeVisitExpr a → x ∈ callVisitExpr (.methodCall receiver method args))
    ∧ (∀ (base : Expr) (member : Member) (args : List Expr) (x : String),
        x ∈ freeVisitExpr base → x ∈ callVisitExpr (.call (.field base member) args))
    ∧ (∀ (func : Expr) (args : List Expr) (a : Expr) (x : String),
        a ∈ args → x ∈ callVisitExpr a → x ∈ freeVisitExpr (.call func args))
    ∧ (∀ (receiver : Expr) (method : String) (args : List Expr) (x : String),
        x ∈ callVisitExpr receiver → x ∈ freeVisitExpr (.methodCall receiver method args))
    ∧ (∀ children : List Expr, freeVisitExpr (.other children)
          = callVisitExpr (.other children)) := by
  refine ⟨?_, ?_, ?_, ?_, ?_, ?_, ?_⟩
  · intro func args a x ha hx
    simp only [callVisitExpr]
    exact List.mem_append.mpr (Or.inr (mem_freeVisitList_of_mem ha hx))
  · intro receiver method args x hx
    simp only [callVisitExpr]
    exact List.mem_cons_of_mem _ (List.mem_append.mpr (Or.inl hx))
  · intro receiver method args a x ha hx
    simp only [callVisitExpr]
    exact List.mem_cons_of_mem _
      (List.mem_append.mpr (Or.inr (mem_freeVisitList_of_mem ha hx)))
  · intro base member args x hx
    simp only [callVisitExpr, processCallee]
    exact List.mem_append.mpr (Or.inl (List.mem_append.mpr (Or.inr hx)))
  · intro func args a x ha hx
    simp only [freeVisitExpr]
    exact List.mem_append.mpr (Or.inr (mem_callVisitList_of_mem ha hx))
  · intro receiver method args x hx
    simp only [freeVisitExpr]
    exact List.mem_append.mpr (Or.inl hx)
  · intro children
    simp only [freeVisitExpr, callVisitExpr]

/-- Call expression `h(g(x))` — a call sitting directly in argument
position — used by the C6 counterexample. -/
def c6ArgBody : Expr :=
  .call (.path ["h"]) [.call (.path ["g"]) [.path ["x"]]]

/-- Method chain `a.b().c()` — a method call sitting directly in receiver
position — used by the C6 counterexample. -/
def c6ChainBody : Expr :=
  .methodCall (.methodCall (.path ["a"]) "b" []) "c" []

/-- Call expression `g(x)(y)` — a call whose callee is itself a call —
used by the C6 counterexample. -/
def c6CalleeBody : Expr :=
  .call (.call (.path ["g"]) [.path ["x"]]) [.path ["y"]]

/-- Macro invocation `println!(f())` carrying a call inside its token
stream, used by the C6 counterexample. -/
def c6MacroBody : Expr :=
  .macroCall ["println"] [.call (.path ["f"]) []]

/-- Counterexample to C6 as stated: `h(g(x))` records only `h` — the call
`g(x)` sits directly in argument position, where the free
`visit::visit_expr` bypasses the labelling override — and `a.b().c()`
records only `chain.b.c`, missing `a.b` in receiver position; the inner
call `g(x)` of `g(x)(y)` is lost because a callee that is neither a path
nor a field access is not walked, and `f()` inside the macro's token
stream is never recorded.  A call one level deeper, as in `h(p(q()))`, is
recorded again. -/
theorem call_walker_traversal_counterexample :
    callVisitExpr c6ArgBody = ["h"]
    ∧ (decide ("g" ∈ callVisitExpr c6ArgBody)) = false
    ∧ callVisitExpr (.call (.path ["g"]) [.path ["x"]]) = ["g"]
    ∧ callVisitExpr c6ChainBody = ["chain.b.c"]
    ∧ (decide ("a.b" ∈ callVisitExpr c6ChainBody)) = false
    ∧ callVisitExpr c6CalleeBody = ["complex_call"]
    ∧ callVisitExpr c6MacroBody = ["macro!println"]
    ∧ (decide ("f" ∈ callVisitExpr c6MacroBody)) = false
    ∧ callVisitExpr
        (.call (.path ["h"]) [.call (.path ["p"]) [.call (.path ["q"]) []]])
      = ["h", "q"] :=
  ⟨rfl, by decide, rfl, rfl, by decide, rfl, rfl, by decide, rfl⟩

/-- Witness for C6's amended statement: in `h(p(q()))` the call `q()` —
one expression level below the directly-nested argument `p(q())` — is
recorded, by chaining the argument rule with the one-level-down dispatch
rule. -/
theorem call_walker_traverses_arguments_witness :
    "q" ∈ callVisitExpr (.call (.path ["h"]) [.call (.path ["p"]) [.call (.path ["q"]) []]]) :=
  (call_walker_traverses_receivers_and_arguments).1 (.path ["h"])
    [.call (.path ["p"]) [.call (.path ["q"]) []]]
    (.call (.path ["p"]) [.call (.path ["q"]) []]) "q"
    (List.mem_singleton.mpr rfl)
    ((call_walker_traverses_receivers_and_arguments).2.2.2.2.1 (.path ["p"])
      [.call (.path ["q"]) []] (.call (.path ["q"]) []) "q"
      (List.mem_singleton.mpr rfl) (by decide))

/-- Claim C7: an impl block whose self type does not resolve to a simple
name is skipped entirely — extraction of the file completes (item
processing is total), the resulting snapshot equals the one for the same
file without that block (so none of the block's methods appear and all
other top-level items are extracted normally), and the block alone
contributes no method at all. -/
theorem impl_block_unresolvable_self_type_skipped {ν μ : Type}
    (items1 items2 : List (SrcItem ν μ)) (selfTy : SynType) (implNode : μ)
    (members : List (String × ν)) (file_path file_content : String)
    (h : resolveSelfTypeName selfTy = none) :
    process_file_items
        (items1 ++ SrcItem.implBlockItem selfTy implNode members :: items2)
        file_path file_content
      = process_file_items (items1 ++ items2) file_path file_content
    ∧ (process_file_items [SrcItem.implBlockItem selfTy implNode members]
        file_path file_content).methods = [] := by
  have hstep : ∀ ast : FileASTData ν ν ν μ,
      processItem ast (SrcItem.implBlockItem selfTy implNode members) = ast := by
    intro ast
    simp only [processItem, process_impl_block, h]
  constructor
  · unfold process_file_items
    rw [List.foldl_append, List.foldl_append, List.foldl_cons, hstep]
  · unfold process_file_items
    rw [List.foldl_cons, hstep, List.foldl_nil]
    rfl

/-- Witness for C7: a file with a function `main`, an impl block for an
unresolvable self type carrying a method `distance`, and a struct `Point`
extracts exactly as the same file without the impl block, and the block
alone contributes no methods. -/
theorem impl_block_unresolvable_self_type_skipped_witness :
    process_file_items (ν := String) (μ := String)
        ([SrcItem.fnItem "main" "fn main()"]
          ++ SrcItem.implBlockItem SynType.nonPath "impl <G as T>::Out"
               [("distance", "fn distance()")]
            :: [SrcItem.structItem "Point" "struct Point"])
        "point.rs" ""
      = process_file_items (ν := String) (μ := String)
          ([SrcItem.fnItem "main" "fn main()"]
            ++ [SrcItem.structItem "Point" "struct Point"])
          "point.rs" ""
    ∧ (process_file_items (ν := String) (μ := String)
        [SrcItem.implBlockItem SynType.nonPath "impl <G as T>::Out"
          [("distance", "fn distance()")]]
        "point.rs" "").methods = [] :=
  impl_block_unresolvable_self_type_skipped
    [SrcItem.fnItem "main" "fn main()"]
    [SrcItem.structItem "Point" "struct Point"]
    SynType.nonPath "impl <G as T>::Out" [("distance", "fn distance()")]
    "point.rs" "" rfl

end Cada
